import Mathlib

/-!
# Verification of the RhythmGame beat-synchronised state machine

Shallow embedding of `src/components/RhythmGame.tsx` (the beat-synchronised
game state machine and live transcript-matching engine of the
`moo-ma-ka-kai` repository).

Modelling conventions:
* React `useState` cells become fields of a single `GameSt` record.  All
  `set*` calls issued inside one event handler are batched by React; the
  handler's net effect is therefore a pure function `GameSt → GameSt`
  (last write to a cell wins), which is exactly how each handler is
  embedded below.
* The three event sources (beat-clock ticks, transcript updates, and the
  start/stop buttons) are serialised by the browser event loop; reachable
  states are generated by the inductive relation `Reachable`.
* `Math.floor(Math.random() * array.length)` is modelled by an arbitrary
  stream `r : Nat → Nat` of naturals reduced modulo `array.length`; for the
  non-empty catalog used by the game this produces exactly the indices the
  original can produce.
* JavaScript strings: `toLowerCase` is modelled per-character with
  `Char.toLower` (faithful for the ASCII letters and Thai codepoints that
  occur in the catalog and in the spec's examples), `trim` strips leading
  and trailing whitespace, and `String.prototype.includes` is substring
  containment.
* The transcript-checking effect calls `.toLowerCase()` on
  `gameImages[activeIndex]?.text` without a guard; a state in which that
  lookup is `undefined` would throw a `TypeError`.  The handler is
  therefore embedded as an `Option`-valued function, `none` marking the
  would-be exception.
* External side effects (speech-stream start/stop, music playback
  start/stop, transcript-buffer reset) are recorded as an `Effect` list
  returned next to the new state.
-/

/-- The `GameState` union type of `RhythmGame.tsx`. -/
inductive GameState where
  | permission_prompt
  | permission_denied
  | loading
  | ready
  | countdown
  | running
  | intermission
  | finished
  deriving DecidableEq, Repr

/-- The per-slot `Feedback` union type. -/
inductive Feedback where
  | pending
  | correct
  | incorrect
  deriving DecidableEq, Repr

/-- `ImageDataObject` from `src/data/imageData.ts`. -/
structure ImageDataObject where
  key : String
  image : String
  text : String
  deriving DecidableEq, Repr

/-- The shared read-only catalog `allImages` from `src/data/imageData.ts`
(the `image` field holds the bundler-resolved asset path; its exact value is
irrelevant to the game logic, so the import name is used). -/
def allImages : List ImageDataObject :=
  [ ⟨"pig", "PigImage", "หมู"⟩
  , ⟨"dog", "DogImage", "หมา"⟩
  , ⟨"crow", "CrowImage", "กา"⟩
  , ⟨"chicken", "ChickenImage", "ไก่"⟩
  , ⟨"cat", "CatImage", "แมว"⟩
  , ⟨"ant", "AntImage", "มด"⟩
  , ⟨"snake", "SnakeImage", "งู"⟩
  , ⟨"horse", "HorseImage", "ม้า"⟩
  , ⟨"fish", "FishImage", "ปลา"⟩ ]

/-- `ResourceStatus` record of `RhythmGame.tsx`. -/
structure ResourceStatus where
  audio : Bool
  speech : Bool
  images : Bool
  deriving DecidableEq, Repr

-- Constants from `RhythmGame.tsx`.

def TOTAL_IMAGES : Nat := 8

def TOTAL_ROUNDS : Nat := 10

def PRE_GAME_COUNTDOWN : Nat := 16

def INTERMISSION_COUNTDOWN : Nat := 8

/-- `getRandomImagesWithDuplicates(array, count)`: draws `count` entries with
replacement.  The random index `Math.floor(Math.random() * array.length)` is
modelled as `r i % array.length` for an arbitrary stream `r`. -/
def getRandomImagesWithDuplicates (array : List ImageDataObject) (r : Nat → Nat)
    (count : Nat) : List ImageDataObject :=
  (List.range count).map (fun i => array.getD (r i % array.length) ⟨"", "", ""⟩)

/-- Requests issued to the external collaborators (speech stream, audio
playback, transcript buffer). -/
inductive Effect where
  | streamStart
  | streamStop
  | playbackStart
  | playbackStop
  | transcriptReset
  deriving DecidableEq, Repr

/-- The `useState` cells of the `RhythmGame` component that the game logic
reads or writes (`loadingProgress` and `errorMessage` are presentational and
omitted). -/
structure GameSt where
  gameState : GameState
  score : Nat
  currentRound : Nat
  countdown : Nat
  isBeatOn : Bool
  gameImages : List ImageDataObject
  activeIndex : Int
  feedback : List Feedback
  resourceStatus : ResourceStatus
  deriving DecidableEq, Repr

/-- `stopGame`: sets the phase to `ready`, stops the speech stream and the
music, and clears the active slot. -/
def stopGame (s : GameSt) : GameSt × List Effect :=
  ({ s with gameState := .ready, activeIndex := -1 },
   [.streamStop, .playbackStop])

/-- `startGame`: resets score/round/feedback, draws a fresh deck, resets the
transcript, arms the pre-game countdown and enters `countdown`; speech and
playback are requested only when the corresponding resource is ready. -/
def startGame (r : Nat → Nat) (s : GameSt) : GameSt × List Effect :=
  ({ s with
      score := 0
      currentRound := 1
      feedback := List.replicate TOTAL_IMAGES .pending
      gameImages := getRandomImagesWithDuplicates allImages r TOTAL_IMAGES
      activeIndex := -1
      countdown := PRE_GAME_COUNTDOWN
      gameState := .countdown },
   [.transcriptReset]
     ++ (if s.resourceStatus.speech then [.streamStart] else [])
     ++ (if s.resourceStatus.audio then [.playbackStart] else []))

/-- One beat of the `useInterval` game loop.  The `isBeatOn` toggle runs on
every tick; the `switch` has cases only for `countdown`, `intermission` and
`running`.  In the final-round branch the source executes
`setGameState('finished')` immediately followed by `stopGame()`, whose own
`setGameState('ready')` is the last write in the same batch — the net phase
is `ready`, which the embedding makes explicit by applying `stopGame` to the
intermediate `finished` state. -/
def gameLoopTick (r : Nat → Nat) (s : GameSt) : GameSt × List Effect :=
  let s := { s with isBeatOn := !s.isBeatOn }
  match s.gameState with
  | .countdown =>
      if s.countdown > 1 then ({ s with countdown := s.countdown - 1 }, [])
      else ({ s with gameState := .running, activeIndex := 0 }, [])
  | .intermission =>
      if s.countdown > 1 then ({ s with countdown := s.countdown - 1 }, [])
      else ({ s with currentRound := s.currentRound + 1,
                     gameState := .running, activeIndex := 0 }, [])
  | .running =>
      let s :=
        if 0 ≤ s.activeIndex ∧ s.feedback[s.activeIndex.toNat]? = some .pending
        then { s with feedback := s.feedback.set s.activeIndex.toNat .incorrect }
        else s
      let nextIndex : Int := (s.activeIndex + 1).tmod (TOTAL_IMAGES : Int)
      if nextIndex = 0 then
        if s.currentRound ≥ TOTAL_ROUNDS then
          stopGame { s with gameState := .finished }
        else
          ({ s with
              gameImages := getRandomImagesWithDuplicates allImages r TOTAL_IMAGES
              feedback := List.replicate TOTAL_IMAGES .pending
              gameState := .intermission
              countdown := INTERMISSION_COUNTDOWN
              activeIndex := -1 }, [])
      else ({ s with activeIndex := nextIndex }, [])
  | _ => (s, [])

-- JavaScript string primitives used by the transcript-matching effect.

/-- `String.prototype.toLowerCase`, per character (faithful on ASCII and on
the Thai range, which `toLowerCase` leaves unchanged). -/
def jsToLower (s : String) : String :=
  String.mk (s.toList.map Char.toLower)

/-- Whitespace stripped by `String.prototype.trim` (the characters that occur
in practice: space U+0020, tab U+0009, line feed U+000A, carriage return
U+000D, written by code point). -/
def jsWhite (c : Char) : Bool :=
  c.toNat = 32 || c.toNat = 9 || c.toNat = 10 || c.toNat = 13

/-- `String.prototype.trim`. -/
def jsTrim (s : String) : String :=
  String.mk (((s.toList.dropWhile jsWhite).reverse.dropWhile jsWhite).reverse)

/-- `haystack.includes(needle)`: substring containment. -/
def jsIncludes (haystack needle : String) : Bool :=
  (List.range (haystack.toList.length + 1)).any
    (fun i => needle.toList.isPrefixOf (haystack.toList.drop i))

/-- The matching test of the real-time speech checking hook:
`transcript.trim().toLowerCase().includes(correctWord.toLowerCase())`. -/
def transcriptMatches (transcript correctWord : String) : Bool :=
  jsIncludes (jsToLower (jsTrim transcript)) (jsToLower correctWord)

/-- The real-time speech checking effect, fired with the current transcript
value.  `none` marks the `TypeError` that the unguarded
`correctWord.toLowerCase()` would throw when `gameImages[activeIndex]` is
`undefined`. -/
def onTranscript (t : String) (s : GameSt) : Option (GameSt × List Effect) :=
  if s.gameState ≠ .running ∨ s.activeIndex < 0 ∨
      s.feedback[s.activeIndex.toNat]? = some .correct then
    some (s, [])
  else
    match s.gameImages[s.activeIndex.toNat]? with
    | none => none
    | some img =>
        if transcriptMatches t img.text then
          some ({ s with
                    score := s.score + 1
                    feedback := s.feedback.set s.activeIndex.toNat .correct },
                [.transcriptReset])
        else some (s, [])

/-- The component state right after the initial mount effect has run: all
counters at their `useState` initials and the deck drawn by the mount
effect; `g` ranges over the phases the permission/loading flow can leave the
component in, and `rs` over the resource outcomes. -/
def initialState (g : GameState) (rs : ResourceStatus) (r : Nat → Nat) : GameSt :=
  { gameState := g
    score := 0
    currentRound := 0
    countdown := PRE_GAME_COUNTDOWN
    isBeatOn := false
    gameImages := getRandomImagesWithDuplicates allImages r TOTAL_IMAGES
    activeIndex := -1
    feedback := List.replicate TOTAL_IMAGES .pending
    resourceStatus := rs }

/-- States reachable by the serialised event sources: beat ticks, transcript
updates (arbitrary payload — this covers re-runs of the checking effect with
a stale transcript), and the start/stop buttons (enabled exactly in the
phases their `disabled` attributes allow). -/
inductive Reachable : GameSt → Prop where
  | init (g : GameState) (rs : ResourceStatus) (r : Nat → Nat) :
      (g = .permission_prompt ∨ g = .permission_denied ∨ g = .loading ∨ g = .ready) →
      Reachable (initialState g rs r)
  | step_start {s : GameSt} (r : Nat → Nat) :
      Reachable s → (s.gameState = .ready ∨ s.gameState = .finished) →
      Reachable (startGame r s).1
  | step_stop {s : GameSt} :
      Reachable s →
      (s.gameState = .countdown ∨ s.gameState = .running ∨ s.gameState = .intermission) →
      Reachable (stopGame s).1
  | step_tick {s : GameSt} (r : Nat → Nat) :
      Reachable s → Reachable (gameLoopTick r s).1
  | step_transcript {s s' : GameSt} {eff : List Effect} (t : String) :
      Reachable s → onTranscript t s = some (s', eff) → Reachable s'

-- ### Helper lemmas

theorem length_getRandomImagesWithDuplicates (a : List ImageDataObject)
    (r : Nat → Nat) (c : Nat) :
    (getRandomImagesWithDuplicates a r c).length = c := by
  simp [getRandomImagesWithDuplicates]

theorem mem_getRandomImagesWithDuplicates {a : List ImageDataObject}
    {r : Nat → Nat} {c : Nat} (ha : a ≠ []) {x : ImageDataObject}
    (hx : x ∈ getRandomImagesWithDuplicates a r c) : x ∈ a := by
  simp only [getRandomImagesWithDuplicates, List.mem_map, List.mem_range] at hx
  obtain ⟨i, -, rfl⟩ := hx
  have hlen : 0 < a.length := List.length_pos.mpr ha
  have hlt : r i % a.length < a.length := Nat.mod_lt _ hlen
  rw [List.getD_eq_getElem _ _ hlt]
  exact List.getElem_mem hlt

theorem int_tmod_succ_cast (m k : Nat) :
    ((m : Int) + 1).tmod (k : Int) = (((m + 1) % k : Nat) : Int) := rfl

/-- On any phase the `switch` does not handle, a tick only toggles the beat
flash. -/
theorem gameLoopTick_inactive (r : Nat → Nat) (s : GameSt)
    (h1 : s.gameState ≠ .countdown) (h2 : s.gameState ≠ .intermission)
    (h3 : s.gameState ≠ .running) :
    gameLoopTick r s = ({ s with isBeatOn := !s.isBeatOn }, []) := by
  obtain ⟨gs, sc, cr, cd, ib, gi, ai, fb, rs⟩ := s
  cases gs <;> simp_all [gameLoopTick]

/-- Tick behaviour in the `countdown` phase. -/
theorem gameLoopTick_countdown (r : Nat → Nat) (s : GameSt)
    (h : s.gameState = .countdown) :
    gameLoopTick r s =
      (if 1 < s.countdown then
        ({ s with isBeatOn := !s.isBeatOn, countdown := s.countdown - 1 }, [])
      else
        ({ s with isBeatOn := !s.isBeatOn, gameState := .running,
                  activeIndex := 0 }, [])) := by
  obtain ⟨gs, sc, cr, cd, ib, gi, ai, fb, rs⟩ := s
  cases gs <;> simp_all [gameLoopTick]

/-- Tick behaviour in the `intermission` phase. -/
theorem gameLoopTick_intermission (r : Nat → Nat) (s : GameSt)
    (h : s.gameState = .intermission) :
    gameLoopTick r s =
      (if 1 < s.countdown then
        ({ s with isBeatOn := !s.isBeatOn, countdown := s.countdown - 1 }, [])
      else
        ({ s with isBeatOn := !s.isBeatOn, currentRound := s.currentRound + 1,
                  gameState := .running, activeIndex := 0 }, [])) := by
  obtain ⟨gs, sc, cr, cd, ib, gi, ai, fb, rs⟩ := s
  cases gs <;> simp_all [gameLoopTick]

/-- The feedback array after the timeout step of a running tick: the vacated
slot is marked `incorrect` when it is still `pending`. -/
def timeoutFeedback (fb : List Feedback) (n : Nat) : List Feedback :=
  if fb[n]? = some .pending then fb.set n .incorrect else fb

/-- Tick behaviour in the `running` phase, for a non-negative active index
`n` (the source guards the timeout write with `activeIndex >= 0`). -/
theorem gameLoopTick_running (r : Nat → Nat) (s : GameSt) (n : Nat)
    (hgs : s.gameState = .running) (hai : s.activeIndex = (n : Int)) :
    gameLoopTick r s =
      (if (n + 1) % TOTAL_IMAGES = 0 then
        if s.currentRound ≥ TOTAL_ROUNDS then
          ({ s with isBeatOn := !s.isBeatOn,
                    feedback := timeoutFeedback s.feedback n,
                    gameState := .ready, activeIndex := -1 },
           [.streamStop, .playbackStop])
        else
          ({ s with isBeatOn := !s.isBeatOn,
                    gameImages := getRandomImagesWithDuplicates allImages r TOTAL_IMAGES,
                    feedback := List.replicate TOTAL_IMAGES .pending,
                    gameState := .intermission,
                    countdown := INTERMISSION_COUNTDOWN,
                    activeIndex := -1 }, [])
      else
        ({ s with isBeatOn := !s.isBeatOn,
                  feedback := timeoutFeedback s.feedback n,
                  activeIndex := (((n + 1) % TOTAL_IMAGES : Nat) : Int) }, [])) := by
  obtain ⟨gs, sc, cr, cd, ib, gi, ai, fb, rs⟩ := s
  subst hgs
  simp only at hai
  subst hai
  have htm : ((n : Int) + 1).tmod ((TOTAL_IMAGES : Nat) : Int)
      = (((n + 1) % TOTAL_IMAGES : Nat) : Int) := int_tmod_succ_cast n TOTAL_IMAGES
  by_cases hc : (n + 1) % TOTAL_IMAGES = 0 <;>
    by_cases hr : TOTAL_ROUNDS ≤ cr <;>
      simp [gameLoopTick, timeoutFeedback, stopGame, htm, hc, hr,
        Int.toNat_natCast, Int.natCast_nonneg, apply_ite]
  all_goals
    rw [show ((n : Int) + 1) = (((n + 1 : Nat)) : Int) from rfl,
      Int.natCast_dvd_natCast]
    simp only [TOTAL_IMAGES] at hc ⊢
    omega

/-- Case analysis of the transcript-checking effect: it either leaves the
state untouched, or — exactly when the phase is `running`, the active slot is
non-negative and not yet `correct`, the deck lookup succeeds, and the
normalised transcript contains the target word — marks the active slot
`correct` and increments the score by one. -/
theorem onTranscript_cases (t : String) (s s' : GameSt) (eff : List Effect)
    (h : onTranscript t s = some (s', eff)) :
    (s' = s ∧ eff = []) ∨
    (s.gameState = .running ∧ 0 ≤ s.activeIndex ∧
     s.feedback[s.activeIndex.toNat]? ≠ some .correct ∧
     (∃ img, s.gameImages[s.activeIndex.toNat]? = some img ∧
        transcriptMatches t img.text = true) ∧
     s' = { s with score := s.score + 1,
                   feedback := s.feedback.set s.activeIndex.toNat .correct } ∧
     eff = [.transcriptReset]) := by
  unfold onTranscript at h
  split at h
  · cases h
    exact Or.inl ⟨rfl, rfl⟩
  · rename_i hguard
    push_neg at hguard
    obtain ⟨hrun, hnn, hcor⟩ := hguard
    split at h
    · cases h
    · rename_i img himg
      split at h
      · rename_i hmatch
        cases h
        exact Or.inr ⟨hrun, hnn, hcor, ⟨img, himg, hmatch⟩, rfl, rfl⟩
      · cases h
        exact Or.inl ⟨rfl, rfl⟩

/-- If the guard of the transcript-checking effect fails, nothing happens. -/
theorem onTranscript_noop (t : String) (s : GameSt)
    (h : s.gameState ≠ .running ∨ s.activeIndex < 0 ∨
      s.feedback[s.activeIndex.toNat]? = some .correct) :
    onTranscript t s = some (s, []) := by
  unfold onTranscript
  rw [if_pos h]

/-- The inductive invariant of the game state machine. -/
def GameInv (s : GameSt) : Prop :=
  (s.gameState = .running → 0 ≤ s.activeIndex ∧ s.activeIndex < (TOTAL_IMAGES : Int)) ∧
  (s.gameState ≠ .running → s.activeIndex = -1) ∧
  1 ≤ s.countdown ∧
  s.gameImages.length = TOTAL_IMAGES ∧
  (∀ x ∈ s.gameImages, x ∈ allImages) ∧
  s.feedback.length = TOTAL_IMAGES

theorem gameInv_initialState (g : GameState) (rs : ResourceStatus) (r : Nat → Nat)
    (hg : g = .permission_prompt ∨ g = .permission_denied ∨ g = .loading ∨ g = .ready) :
    GameInv (initialState g rs r) := by
  have hg' : g ≠ .running := by
    rcases hg with h | h | h | h <;> subst h <;> intro h <;> cases h
  refine ⟨fun hr => absurd hr hg', fun _ => rfl, ?_, ?_, ?_, ?_⟩
  · simp [initialState, PRE_GAME_COUNTDOWN]
  · simp [initialState, length_getRandomImagesWithDuplicates]
  · intro x hx
    exact mem_getRandomImagesWithDuplicates (by simp [allImages]) hx
  · simp [initialState]

/-- Every state reachable by the serialised event sources satisfies the
invariant. -/
theorem reachable_inv {s : GameSt} (h : Reachable s) : GameInv s := by
  induction h with
  | init g rs r hg => exact gameInv_initialState g rs r hg
  | step_start r hs hready ih =>
      unfold GameInv
      refine ⟨?_, ?_, ?_, ?_, ?_, ?_⟩ <;>
        simp [startGame, PRE_GAME_COUNTDOWN, length_getRandomImagesWithDuplicates]
      intro x hx
      exact mem_getRandomImagesWithDuplicates (by simp [allImages]) hx
  | step_stop hs hactive ih =>
      obtain ⟨ih1, ih2, ih3, ih4, ih5, ih6⟩ := ih
      unfold GameInv
      refine ⟨?_, ?_, ?_, ?_, ?_, ?_⟩ <;> simp [stopGame]
      exacts [ih3, ih4, ih5, ih6]
  | step_tick r hs ih =>
      rename_i s
      obtain ⟨ih1, ih2, ih3, ih4, ih5, ih6⟩ := ih
      by_cases hrun : s.gameState = .running
      · obtain ⟨hnn, hlt⟩ := ih1 hrun
        obtain ⟨n, hn⟩ := Int.eq_ofNat_of_zero_le hnn
        have hn8 : n < TOTAL_IMAGES := by exact_mod_cast hn ▸ hlt
        rw [gameLoopTick_running r s n hrun hn]
        by_cases hc : (n + 1) % TOTAL_IMAGES = 0
        · rw [if_pos hc]
          by_cases hr2 : s.currentRound ≥ TOTAL_ROUNDS
          · rw [if_pos hr2]
            unfold GameInv
            refine ⟨?_, ?_, ?_, ?_, ?_, ?_⟩ <;> simp [timeoutFeedback]
            exacts [ih3, ih4, ih5, by split <;> simp [ih6]]
          · rw [if_neg hr2]
            unfold GameInv
            refine ⟨?_, ?_, ?_, ?_, ?_, ?_⟩ <;>
              simp [INTERMISSION_COUNTDOWN, length_getRandomImagesWithDuplicates]
            intro x hx
            exact mem_getRandomImagesWithDuplicates (by simp [allImages]) hx
        · rw [if_neg hc]
          unfold GameInv
          refine ⟨?_, ?_, ?_, ?_, ?_, ?_⟩ <;> simp [timeoutFeedback]
          · intro _
            refine ⟨Int.emod_nonneg _ ?_, Int.emod_lt_of_pos _ ?_⟩ <;>
              norm_num [TOTAL_IMAGES]
          · exact fun hx => absurd hrun hx
          · exact ih3
          · exact ih4
          · exact ih5
          · split <;> simp [ih6]
      · by_cases hcd : s.gameState = .countdown
        · rw [gameLoopTick_countdown r s hcd]
          split
          · rename_i hgt
            unfold GameInv
            refine ⟨?_, ?_, ?_, ?_, ?_, ?_⟩ <;> simp [hcd]
            exacts [ih2 hrun, by omega, ih4, ih5, ih6]
          · unfold GameInv
            refine ⟨?_, ?_, ?_, ?_, ?_, ?_⟩ <;> simp [TOTAL_IMAGES]
            exacts [ih3, by simpa [TOTAL_IMAGES] using ih4, ih5, ih6]
        · by_cases hin : s.gameState = .intermission
          · rw [gameLoopTick_intermission r s hin]
            split
            · rename_i hgt
              unfold GameInv
              refine ⟨?_, ?_, ?_, ?_, ?_, ?_⟩ <;> simp [hin]
              exacts [ih2 hrun, by omega, ih4, ih5, ih6]
            · unfold GameInv
              refine ⟨?_, ?_, ?_, ?_, ?_, ?_⟩ <;> simp [TOTAL_IMAGES]
              exacts [ih3, by simpa [TOTAL_IMAGES] using ih4, ih5, ih6]
          · rw [gameLoopTick_inactive r s hcd hin hrun]
            unfold GameInv
            refine ⟨?_, ?_, ?_, ?_, ?_, ?_⟩ <;> simp [hrun]
            exacts [ih2 hrun, ih3, ih4, ih5, ih6]
  | step_transcript t hs heq ih =>
      obtain ⟨ih1, ih2, ih3, ih4, ih5, ih6⟩ := ih
      rcases onTranscript_cases _ _ _ _ heq with ⟨rfl, -⟩ | ⟨hrun, hnn, hcor, hm, rfl, -⟩
      · exact ⟨ih1, ih2, ih3, ih4, ih5, ih6⟩
      · unfold GameInv
        refine ⟨?_, ?_, ?_, ?_, ?_, ?_⟩ <;> simp [hrun]
        exacts [ih1 hrun, ih3, ih4, ih5, by simp [ih6]]

-- ### Lemmas about the string normalisation

theorem char_ofNat_toNat_of_valid (n : Nat) (h : n.isValidChar) :
    (Char.ofNat n).toNat = n := by
  unfold Char.ofNat
  rw [dif_pos h]
  rfl

/-- `Char.toLower` is idempotent: basic latin upper-case letters are mapped
into `[97, 122]`, which the guard `[65, 90]` no longer touches. -/
theorem char_toLower_idem (c : Char) : c.toLower.toLower = c.toLower := by
  unfold Char.toLower
  by_cases h : c.toNat ≥ 65 ∧ c.toNat ≤ 90
  · rw [if_pos h]
    have hv : (c.toNat + 32).isValidChar := by
      constructor
      omega
    have ht : (Char.ofNat (c.toNat + 32)).toNat = c.toNat + 32 :=
      char_ofNat_toNat_of_valid _ hv
    simp only [ht]
    rw [if_neg (by omega)]
  · rw [if_neg h, if_neg h]

/-- Lower-casing maps no character into or out of the whitespace set. -/
theorem jsWhite_toLower (c : Char) : jsWhite c.toLower = jsWhite c := by
  unfold Char.toLower
  by_cases h : c.toNat >= 65 ∧ c.toNat <= 90
  · rw [if_pos h]
    have hv : (c.toNat + 32).isValidChar := by
      constructor
      omega
    have ht : (Char.ofNat (c.toNat + 32)).toNat = c.toNat + 32 :=
      char_ofNat_toNat_of_valid _ hv
    unfold jsWhite
    rw [ht]
    trans false
    · simp only [Bool.or_eq_false_iff, decide_eq_false_iff_not]
      omega
    · symm
      simp only [Bool.or_eq_false_iff, decide_eq_false_iff_not]
      omega
  · rw [if_neg h]

theorem string_toList_mk (l : List Char) : (String.mk l).toList = l := rfl

theorem jsToLower_idem (s : String) : jsToLower (jsToLower s) = jsToLower s := by
  unfold jsToLower
  rw [string_toList_mk, List.map_map]
  congr 1
  exact List.map_congr_left (fun c _ => char_toLower_idem c)

/-- Trimming commutes with lower-casing, because lower-casing preserves the
whitespace test. -/
theorem jsTrim_jsToLower (s : String) :
    jsTrim (jsToLower s) = jsToLower (jsTrim s) := by
  unfold jsTrim jsToLower
  rw [string_toList_mk, string_toList_mk]
  have hw : (jsWhite ∘ Char.toLower) = jsWhite := funext fun c => jsWhite_toLower c
  rw [List.dropWhile_map, hw, ← List.map_reverse, List.dropWhile_map, hw,
    ← List.map_reverse]
  rfl

/-- The containment test of the matcher is insensitive to lower-casing either
argument, since both sides are lower-cased before the test. -/
theorem transcriptMatches_toLower (t w : String) :
    transcriptMatches (jsToLower t) (jsToLower w) = transcriptMatches t w := by
  unfold transcriptMatches
  rw [jsTrim_jsToLower, jsToLower_idem, jsToLower_idem]

-- ### Concrete executions

/-- A fixed random stream used for concrete executions (always picks the
first catalog entry). -/
def r0 : Nat → Nat := fun _ => 0

/-- One beat tick with the fixed stream, state part only. -/
def tick1 (s : GameSt) : GameSt := (gameLoopTick r0 s).1

/-- Deliver `n` consecutive beat ticks. -/
def iterTicks : Nat → GameSt → GameSt
  | 0, s => s
  | n + 1, s => iterTicks n (tick1 s)

/-- The `n + 1` states visited while delivering `n` consecutive beat ticks
(the state before each tick, and the final state). -/
def statesList : Nat → GameSt → List GameSt
  | 0, s => [s]
  | n + 1, s => s :: statesList n (tick1 s)

/-- A ready state with every resource loaded. -/
def sReady : GameSt := initialState .ready ⟨true, true, true⟩ r0

/-- The state right after pressing the start button in `sReady`. -/
def sStart : GameSt := (startGame r0 sReady).1

/-- The matching test as the specification words it: both the transcript and
the target word are lowercased and trimmed before the containment test.
(The source trims only the transcript.) -/
def transcriptMatchesClaimed (transcript correctWord : String) : Bool :=
  jsIncludes (jsToLower (jsTrim transcript)) (jsToLower (jsTrim correctWord))

/-- A beat tick never changes the score. -/
theorem gameLoopTick_score (r : Nat → Nat) (s : GameSt) :
    (gameLoopTick r s).1.score = s.score := by
  obtain ⟨gs, sc, cr, cd, ib, gi, ai, fb, rs⟩ := s
  cases gs <;> simp only [gameLoopTick, stopGame] <;> split_ifs <;> rfl

set_option maxRecDepth 4000

/-- C1: delivering the full game's beat ticks from a fresh start — 16
countdown ticks, exactly `TOTAL_ROUNDS * TOTAL_IMAGES = 80` ticks in the
`running` phase, and 72 intermission ticks, 168 in all — leaves the machine
in phase `ready`, not `finished`: the final-round branch runs
`setGameState('finished')` but then calls `stopGame()`, whose own
`setGameState('ready')` is the last phase write in the same batch.  The
`stop()` side effects (stream stop, playback stop) are emitted on the final
tick exactly as the claim states, but the resting phase contradicts the
claimed `Finished` (the component's own `finished` render branch is
unreachable). -/
theorem c1_full_game_ends_ready_not_finished :
    (statesList 167 sStart).countP (fun s => s.gameState == .running)
        = TOTAL_ROUNDS * TOTAL_IMAGES ∧
    (iterTicks 167 sStart).gameState = GameState.running ∧
    (iterTicks 167 sStart).currentRound = TOTAL_ROUNDS ∧
    (gameLoopTick r0 (iterTicks 167 sStart)).2
        = [Effect.streamStop, Effect.playbackStop] ∧
    (iterTicks 168 sStart).gameState = GameState.ready ∧
    (iterTicks 168 sStart).gameState ≠ GameState.finished :=
  ⟨by decide, by decide, by decide, by decide, by decide, by decide⟩

/-- C2: in every reachable state `activeSlotIndex` lies in `[-1, N)`; it is
in `[0, N)` exactly when the phase is `running`, and equals `-1` in every
other phase. -/
theorem c2_activeIndex_range (s : GameSt) (h : Reachable s) :
    -1 ≤ s.activeIndex ∧ s.activeIndex < (TOTAL_IMAGES : Int) ∧
    ((0 ≤ s.activeIndex ∧ s.activeIndex < (TOTAL_IMAGES : Int)) ↔
      s.gameState = .running) ∧
    (s.gameState ≠ .running → s.activeIndex = -1) := by
  obtain ⟨h1, h2, -, -, -, -⟩ := reachable_inv h
  by_cases hr : s.gameState = .running
  · obtain ⟨ha, hb⟩ := h1 hr
    exact ⟨by omega, hb, ⟨fun _ => hr, fun _ => ⟨ha, hb⟩⟩, fun hx => absurd hr hx⟩
  · have hm1 := h2 hr
    refine ⟨by omega, by rw [hm1]; norm_num [TOTAL_IMAGES], ?_, fun _ => hm1⟩
    constructor
    · intro hx
      rw [hm1] at hx
      omega
    · intro hx
      exact absurd hx hr

/-- Witness for C2 at a concrete reachable state (the freshly mounted ready
state). -/
theorem c2_activeIndex_range_witness :
    -1 ≤ sReady.activeIndex ∧ sReady.activeIndex < (TOTAL_IMAGES : Int) ∧
    ((0 ≤ sReady.activeIndex ∧ sReady.activeIndex < (TOTAL_IMAGES : Int)) ↔
      sReady.gameState = .running) ∧
    (sReady.gameState ≠ .running → sReady.activeIndex = -1) :=
  c2_activeIndex_range sReady
    (Reachable.init .ready ⟨true, true, true⟩ r0 (Or.inr (Or.inr (Or.inr rfl))))

/-- C3: within a session (beat ticks, stop, transcript updates — everything
except `startGame`, which begins a new session) the score never decreases;
a transcript update raises it by at most 1, and by exactly 1 precisely when
the active slot's feedback makes its first transition to `correct`; two
consecutive transcript updates raise it by at most 1 in total (the second
sees the slot already `correct`). -/
theorem c3_score_monotone (s : GameSt) (h : Reachable s) (t t2 : String)
    (r : Nat → Nat) :
    (gameLoopTick r s).1.score = s.score ∧
    (stopGame s).1.score = s.score ∧
    (∀ s' eff, onTranscript t s = some (s', eff) →
      s.score ≤ s'.score ∧ s'.score ≤ s.score + 1 ∧
      (s'.score = s.score + 1 ↔
        (s.feedback[s.activeIndex.toNat]? ≠ some .correct ∧
         s'.feedback[s.activeIndex.toNat]? = some .correct))) ∧
    (∀ s1 e1 s2 e2, onTranscript t s = some (s1, e1) →
      onTranscript t2 s1 = some (s2, e2) → s2.score ≤ s.score + 1) := by
  obtain ⟨h1, -, -, -, -, h6⟩ := reachable_inv h
  refine ⟨gameLoopTick_score r s, rfl, ?_, ?_⟩
  · intro s' eff heq
    rcases onTranscript_cases _ _ _ _ heq with ⟨rfl, -⟩ | ⟨hrun, hnn, hcor, -, rfl, -⟩
    · refine ⟨le_refl _, Nat.le_succ _, ?_⟩
      constructor
      · intro hx
        omega
      · rintro ⟨hne, hsome⟩
        exact absurd hsome hne
    · obtain ⟨-, hlt⟩ := h1 hrun
      obtain ⟨n, hn⟩ := Int.eq_ofNat_of_zero_le hnn
      have hn8 : n < TOTAL_IMAGES := by exact_mod_cast hn ▸ hlt
      have hidx : s.activeIndex.toNat < s.feedback.length := by
        rw [hn, Int.toNat_natCast, h6]
        exact hn8
      refine ⟨Nat.le_succ _, le_refl _, ?_⟩
      constructor
      · intro _
        refine ⟨hcor, ?_⟩
        show (s.feedback.set s.activeIndex.toNat Feedback.correct)[s.activeIndex.toNat]?
          = some Feedback.correct
        exact List.getElem?_set_self hidx
      · intro _
        rfl
  · intro s1 e1 s2 e2 h1eq h2eq
    rcases onTranscript_cases _ _ _ _ h1eq with ⟨rfl, -⟩ | ⟨hrun, hnn, hcor, -, rfl, -⟩
    · rcases onTranscript_cases _ _ _ _ h2eq with ⟨rfl, -⟩ | ⟨-, -, -, -, rfl, -⟩
      · exact Nat.le_succ _
      · exact le_refl _
    · obtain ⟨-, hlt⟩ := h1 hrun
      obtain ⟨n, hn⟩ := Int.eq_ofNat_of_zero_le hnn
      have hn8 : n < TOTAL_IMAGES := by exact_mod_cast hn ▸ hlt
      have hidx : s.activeIndex.toNat < s.feedback.length := by
        rw [hn, Int.toNat_natCast, h6]
        exact hn8
      rcases onTranscript_cases _ _ _ _ h2eq with ⟨rfl, -⟩ | ⟨-, -, hcor2, -, rfl, -⟩
      · exact le_refl _
      · exact absurd (by simp [List.getElem?_set_self hidx]) hcor2

/-- Witness for C3 at a concrete reachable state with concrete transcript
payloads. -/
theorem c3_score_monotone_witness :
    (gameLoopTick r0 sReady).1.score = sReady.score ∧
    (stopGame sReady).1.score = sReady.score ∧
    (∀ s' eff, onTranscript "dog" sReady = some (s', eff) →
      sReady.score ≤ s'.score ∧ s'.score ≤ sReady.score + 1 ∧
      (s'.score = sReady.score + 1 ↔
        (sReady.feedback[sReady.activeIndex.toNat]? ≠ some .correct ∧
         s'.feedback[sReady.activeIndex.toNat]? = some .correct))) ∧
    (∀ s1 e1 s2 e2, onTranscript "dog" sReady = some (s1, e1) →
      onTranscript "cat" s1 = some (s2, e2) → s2.score ≤ sReady.score + 1) :=
  c3_score_monotone sReady
    (Reachable.init .ready ⟨true, true, true⟩ r0 (Or.inr (Or.inr (Or.inr rfl))))
    "dog" "cat" r0

/-- C4: the mark-correct mutation performed by the transcript-checking hook
is a no-op unless the phase is `running`, the index is the (non-negative)
active slot, and that slot is not already `correct`; when it does mutate it
sets exactly the active slot to `correct` and raises the score by exactly 1.
In particular a transcript update during `intermission` never mutates
feedback.  (The mutation always targets `activeIndex` itself, so the
claim's `index = activeSlotIndex` precondition is satisfied by
construction.) -/
theorem c4_markSlotCorrect_guards (s : GameSt) (t : String) :
    (s.gameState ≠ .running → onTranscript t s = some (s, [])) ∧
    (s.gameState = .intermission →
      ∀ s' eff, onTranscript t s = some (s', eff) → s'.feedback = s.feedback) ∧
    (s.feedback[s.activeIndex.toNat]? = some .correct →
      onTranscript t s = some (s, [])) ∧
    (∀ s' eff, onTranscript t s = some (s', eff) → s' ≠ s →
      s.gameState = .running ∧ 0 ≤ s.activeIndex ∧
      s.feedback[s.activeIndex.toNat]? ≠ some .correct ∧
      s'.score = s.score + 1 ∧
      s'.feedback = s.feedback.set s.activeIndex.toNat .correct) ∧
    (∀ img, s.gameState = .running → 0 ≤ s.activeIndex →
      s.feedback[s.activeIndex.toNat]? ≠ some .correct →
      s.gameImages[s.activeIndex.toNat]? = some img →
      transcriptMatches t img.text = true →
      onTranscript t s =
        some ({ s with score := s.score + 1,
                       feedback := s.feedback.set s.activeIndex.toNat .correct },
              [.transcriptReset])) := by
  refine ⟨?_, ?_, ?_, ?_, ?_⟩
  · intro hx
    exact onTranscript_noop t s (Or.inl hx)
  · intro hin s' eff heq
    rw [onTranscript_noop t s (Or.inl (by rw [hin]; intro hx; cases hx))] at heq
    cases heq
    rfl
  · intro hx
    exact onTranscript_noop t s (Or.inr (Or.inr hx))
  · intro s' eff heq hne
    rcases onTranscript_cases _ _ _ _ heq with ⟨rfl, -⟩ | ⟨hrun, hnn, hcor, -, rfl, -⟩
    · exact absurd rfl hne
    · exact ⟨hrun, hnn, hcor, rfl, rfl⟩
  · intro img hrun hnn hcor himg hmatch
    unfold onTranscript
    rw [if_neg (by push_neg; exact ⟨hrun, hnn, hcor⟩)]
    simp only [himg, hmatch, if_true]

/-- Witness for C4: a transcript update in the ready state (phase not
`running`) leaves the state untouched. -/
theorem c4_markSlotCorrect_guards_witness :
    sReady.gameState ≠ GameState.running ∧
    onTranscript "dog" sReady = some (sReady, []) :=
  ⟨by decide, (c4_markSlotCorrect_guards sReady "dog").1 (by decide)⟩

/-- C5: after `stopGame` runs, a stale queued beat tick or transcript update
mutates none of the claimed state components (phase, score, round,
countdown, deck, feedback, active index); the tick only toggles the
cosmetic beat flash, and the transcript handler returns the state
unchanged. -/
theorem c5_stop_stale_noop (s : GameSt) (r : Nat → Nat) (t : String) :
    ((gameLoopTick r (stopGame s).1).1.gameState = (stopGame s).1.gameState ∧
     (gameLoopTick r (stopGame s).1).1.score = (stopGame s).1.score ∧
     (gameLoopTick r (stopGame s).1).1.currentRound = (stopGame s).1.currentRound ∧
     (gameLoopTick r (stopGame s).1).1.countdown = (stopGame s).1.countdown ∧
     (gameLoopTick r (stopGame s).1).1.gameImages = (stopGame s).1.gameImages ∧
     (gameLoopTick r (stopGame s).1).1.feedback = (stopGame s).1.feedback ∧
     (gameLoopTick r (stopGame s).1).1.activeIndex = (stopGame s).1.activeIndex) ∧
    onTranscript t (stopGame s).1 = some ((stopGame s).1, []) := by
  have hstop : (stopGame s).1.gameState = .ready := rfl
  constructor
  · rw [gameLoopTick_inactive r _ (by rw [hstop]; intro hx; cases hx)
      (by rw [hstop]; intro hx; cases hx) (by rw [hstop]; intro hx; cases hx)]
    exact ⟨rfl, rfl, rfl, rfl, rfl, rfl, rfl⟩
  · exact onTranscript_noop t _ (Or.inl (by rw [hstop]; intro hx; cases hx))

/-- C6 counterexample: the source normalises only the TRANSCRIPT by
trimming (`transcript.trim().toLowerCase()`); the target word is lowercased
but NOT trimmed (`correctWord.toLowerCase()`).  For the concrete transcript
`"dog"` and target word `"dog "` the claimed both-sides-trimmed
normalisation matches, but the code does not. -/
theorem c6_matching_counterexample :
    transcriptMatches "dog" "dog " = false ∧
    transcriptMatchesClaimed "dog" "dog " = true :=
  ⟨by decide, by decide⟩

/-- C6 amended: matching normalises the transcript by trimming and
lowercasing and the target word by lowercasing only, then tests substring
containment; matching is case-insensitive in both arguments, and
whitespace-trimming applies to the transcript — the claim's example,
transcript `"  DOG please "` against target word `"dog"`, matches. -/
theorem c6_matching_amended :
    (∀ t w, transcriptMatches t w =
      jsIncludes (jsToLower (jsTrim t)) (jsToLower w)) ∧
    (∀ t w, transcriptMatches (jsToLower t) (jsToLower w) = transcriptMatches t w) ∧
    transcriptMatches "  DOG please " "dog" = true ∧
    transcriptMatches "  dog please " "DOG" = true :=
  ⟨fun _ _ => rfl, transcriptMatches_toLower, by decide, by decide⟩

/-- C7 counterexample: on the beat tick that closes a non-final round the
whole feedback array is reset to `pending` after the vacated slot is marked
`incorrect`, so NO slot ends the tick away from `pending`.  Concretely,
after 23 ticks of the canonical run the machine is running with the vacated
slot 7 still `pending`; the 24th tick enters `intermission` with every slot
`pending` — zero slots transitioned away from `pending`, contradicting
"exactly one". -/
theorem c7_feedback_counterexample :
    (iterTicks 23 sStart).gameState = GameState.running ∧
    (iterTicks 23 sStart).activeIndex = (7 : Int) ∧
    (iterTicks 23 sStart).feedback[(7 : Nat)]? = some Feedback.pending ∧
    (iterTicks 23 sStart).currentRound < TOTAL_ROUNDS ∧
    iterTicks 24 sStart = (gameLoopTick r0 (iterTicks 23 sStart)).1 ∧
    (iterTicks 24 sStart).feedback = List.replicate TOTAL_IMAGES Feedback.pending ∧
    (iterTicks 24 sStart).gameState = GameState.intermission :=
  ⟨by decide, by decide, by decide, by decide, by decide, by decide, by decide⟩

/-- C7 amended: during `running`, a beat tick that does not close a round
(and likewise the final tick of the last round) changes exactly the vacated
slot — `pending ↦ incorrect`, `correct` left alone — and no other slot; a
tick that closes a non-final round instead resets the whole feedback array
to `pending`. -/
theorem c7_feedback_transition (s : GameSt) (r : Nat → Nat) (n : Nat)
    (hrun : s.gameState = .running) (hai : s.activeIndex = (n : Int)) :
    (((n + 1) % TOTAL_IMAGES ≠ 0 ∨ s.currentRound ≥ TOTAL_ROUNDS) →
      (gameLoopTick r s).1.feedback =
        (if s.feedback[n]? = some .pending then s.feedback.set n .incorrect
         else s.feedback) ∧
      (∀ j, j ≠ n → (gameLoopTick r s).1.feedback[j]? = s.feedback[j]?)) ∧
    (((n + 1) % TOTAL_IMAGES = 0 ∧ s.currentRound < TOTAL_ROUNDS) →
      (gameLoopTick r s).1.feedback = List.replicate TOTAL_IMAGES .pending) := by
  rw [gameLoopTick_running r s n hrun hai]
  constructor
  · intro hcase
    have hfb : (if (n + 1) % TOTAL_IMAGES = 0 then
        if s.currentRound ≥ TOTAL_ROUNDS then
          ({ s with isBeatOn := !s.isBeatOn,
                    feedback := timeoutFeedback s.feedback n,
                    gameState := .ready, activeIndex := -1 },
           ([.streamStop, .playbackStop] : List Effect))
        else
          ({ s with isBeatOn := !s.isBeatOn,
                    gameImages := getRandomImagesWithDuplicates allImages r TOTAL_IMAGES,
                    feedback := List.replicate TOTAL_IMAGES .pending,
                    gameState := .intermission,
                    countdown := INTERMISSION_COUNTDOWN,
                    activeIndex := -1 }, [])
      else
        ({ s with isBeatOn := !s.isBeatOn,
                  feedback := timeoutFeedback s.feedback n,
                  activeIndex := (((n + 1) % TOTAL_IMAGES : Nat) : Int) }, [])).1.feedback
        = timeoutFeedback s.feedback n := by
      rcases hcase with hne | hge
      · rw [if_neg hne]
      · by_cases hc : (n + 1) % TOTAL_IMAGES = 0
        · rw [if_pos hc, if_pos hge]
        · rw [if_neg hc]
    rw [hfb]
    constructor
    · rfl
    · intro j hj
      unfold timeoutFeedback
      split
      · exact List.getElem?_set_ne (fun hx => hj hx.symm)
      · rfl
  · rintro ⟨hc, hlt⟩
    rw [if_pos hc, if_neg (by omega)]

/-- Witness for C7 amended at a concrete running state (first running tick
of the canonical run: slot 0 is vacated and marked `incorrect`). -/
theorem c7_feedback_transition_witness :
    (iterTicks 16 sStart).gameState = GameState.running ∧
    (iterTicks 16 sStart).activeIndex = ((0 : Nat) : Int) ∧
    ((0 + 1) % TOTAL_IMAGES ≠ 0 ∨ (iterTicks 16 sStart).currentRound ≥ TOTAL_ROUNDS) ∧
    (gameLoopTick r0 (iterTicks 16 sStart)).1.feedback =
      (if (iterTicks 16 sStart).feedback[(0 : Nat)]? = some .pending
       then (iterTicks 16 sStart).feedback.set 0 .incorrect
       else (iterTicks 16 sStart).feedback) :=
  ⟨by decide, by decide, Or.inl (by decide),
    ((c7_feedback_transition (iterTicks 16 sStart) r0 0 (by decide) (by decide)).1
      (Or.inl (by decide))).1⟩

/-- C8: calling `startGame` from the `ready` phase (and equally from
`finished`) yields phase `countdown` with `countdown = PRE_GAME_COUNTDOWN
= 16`, score 0, round 1, a freshly drawn deck of `TOTAL_IMAGES` catalog
prompts, all feedback `pending`, and `activeIndex = -1` — in particular a
replay resets score and round. -/
theorem c8_startGame_resets (s : GameSt) (r : Nat → Nat)
    (h : s.gameState = .ready ∨ s.gameState = .finished) :
    (startGame r s).1.gameState = .countdown ∧
    (startGame r s).1.countdown = PRE_GAME_COUNTDOWN ∧
    PRE_GAME_COUNTDOWN = 16 ∧
    (startGame r s).1.score = 0 ∧
    (startGame r s).1.currentRound = 1 ∧
    (startGame r s).1.gameImages = getRandomImagesWithDuplicates allImages r TOTAL_IMAGES ∧
    (startGame r s).1.gameImages.length = TOTAL_IMAGES ∧
    (∀ x ∈ (startGame r s).1.gameImages, x ∈ allImages) ∧
    (startGame r s).1.feedback = List.replicate TOTAL_IMAGES .pending ∧
    (startGame r s).1.activeIndex = -1 :=
  ⟨rfl, rfl, rfl, rfl, rfl, rfl, length_getRandomImagesWithDuplicates _ _ _,
    fun _ hx => mem_getRandomImagesWithDuplicates (by simp [allImages]) hx, rfl, rfl⟩

/-- Witness for C8: the round-trip — after the canonical full game run (168
ticks, which ends in phase `ready`), pressing start again resets the score
to 0 and the round to 1 and re-enters `countdown`. -/
theorem c8_startGame_resets_witness :
    ((iterTicks 168 sStart).gameState = .ready ∨
      (iterTicks 168 sStart).gameState = .finished) ∧
    (startGame r0 (iterTicks 168 sStart)).1.gameState = .countdown ∧
    (startGame r0 (iterTicks 168 sStart)).1.score = 0 ∧
    (startGame r0 (iterTicks 168 sStart)).1.currentRound = 1 :=
  have h := c8_startGame_resets (iterTicks 168 sStart) r0 (Or.inl (by decide))
  ⟨Or.inl (by decide), h.1, h.2.2.2.1, h.2.2.2.2.1⟩

/-- C9: in every reachable state the countdown counter is at least 1; in
`countdown`/`intermission` a tick decrements it only while it is above 1,
and the tick that arrives while it equals 1 performs the transition to
`running` (with `activeIndex = 0`, and for `intermission` the round
increment), so the counter never reaches 0. -/
theorem c9_countdown_never_zero (s : GameSt) (h : Reachable s) (r : Nat → Nat) :
    1 ≤ s.countdown ∧
    (s.gameState = .countdown → 1 < s.countdown →
      (gameLoopTick r s).1.countdown = s.countdown - 1 ∧
      (gameLoopTick r s).1.gameState = .countdown) ∧
    (s.gameState = .countdown → s.countdown = 1 →
      (gameLoopTick r s).1.gameState = .running ∧
      (gameLoopTick r s).1.activeIndex = 0) ∧
    (s.gameState = .intermission → 1 < s.countdown →
      (gameLoopTick r s).1.countdown = s.countdown - 1 ∧
      (gameLoopTick r s).1.gameState = .intermission) ∧
    (s.gameState = .intermission → s.countdown = 1 →
      (gameLoopTick r s).1.gameState = .running ∧
      (gameLoopTick r s).1.activeIndex = 0 ∧
      (gameLoopTick r s).1.currentRound = s.currentRound + 1) := by
  obtain ⟨-, -, h3, -, -, -⟩ := reachable_inv h
  refine ⟨h3, ?_, ?_, ?_, ?_⟩
  · intro hcd hgt
    rw [gameLoopTick_countdown r s hcd, if_pos hgt]
    exact ⟨rfl, hcd⟩
  · intro hcd h1
    rw [gameLoopTick_countdown r s hcd, if_neg (by omega)]
    exact ⟨rfl, rfl⟩
  · intro hin hgt
    rw [gameLoopTick_intermission r s hin, if_pos hgt]
    exact ⟨rfl, hin⟩
  · intro hin h1
    rw [gameLoopTick_intermission r s hin, if_neg (by omega)]
    exact ⟨rfl, rfl, rfl⟩

/-- Witness for C9 at a concrete reachable countdown state (just after
start: countdown 16, and the tick decrements it to 15). -/
theorem c9_countdown_never_zero_witness :
    1 ≤ sStart.countdown ∧
    (gameLoopTick r0 sStart).1.countdown = sStart.countdown - 1 ∧
    (gameLoopTick r0 sStart).1.gameState = .countdown :=
  have h := c9_countdown_never_zero sStart
    (Reachable.step_start r0
      (Reachable.init .ready ⟨true, true, true⟩ r0 (Or.inr (Or.inr (Or.inr rfl))))
      (Or.inl rfl)) r0
  ⟨h.1, h.2.1 (by decide) (by decide)⟩

/-- C10: in every reachable state (the initial mount effect included) the
deck holds exactly `TOTAL_IMAGES = 8` entries, every entry is an element of
the shared catalog, and consequently the transcript-checking handler never
hits the `undefined` lookup: its unguarded `.toLowerCase()` call cannot
fail (the handler never returns `none`). -/
theorem c10_deck_always_full (s : GameSt) (h : Reachable s) :
    s.gameImages.length = TOTAL_IMAGES ∧
    (∀ x ∈ s.gameImages, x ∈ allImages) ∧
    (∀ t, (onTranscript t s).isSome) := by
  obtain ⟨h1, -, -, h4, h5, -⟩ := reachable_inv h
  refine ⟨h4, h5, ?_⟩
  intro t
  unfold onTranscript
  split
  · rfl
  · rename_i hguard
    push_neg at hguard
    obtain ⟨hrun, hnn, -⟩ := hguard
    obtain ⟨-, hlt⟩ := h1 hrun
    obtain ⟨n, hn⟩ := Int.eq_ofNat_of_zero_le hnn
    have hn8 : n < TOTAL_IMAGES := by exact_mod_cast hn ▸ hlt
    have hlen : s.activeIndex.toNat < s.gameImages.length := by
      rw [hn, Int.toNat_natCast, h4]
      exact hn8
    rw [List.getElem?_eq_getElem hlen]
    split
    · rename_i heq2
      exact Option.noConfusion heq2
    · split <;> rfl

/-- Witness for C10 at a concrete reachable state. -/
theorem c10_deck_always_full_witness :
    sReady.gameImages.length = TOTAL_IMAGES ∧
    (∀ x ∈ sReady.gameImages, x ∈ allImages) ∧
    (∀ t, (onTranscript t sReady).isSome) :=
  c10_deck_always_full sReady
    (Reachable.init .ready ⟨true, true, true⟩ r0 (Or.inr (Or.inr (Or.inr rfl))))
